import Mathlib

/-!
Verification of the `pf` folder picker (`main.go`).

The program is a single bubbletea model: a record of UI and filesystem
state, an `Update` function reacting to key and window-size events, and
two pure helpers `loadDir` and `filtered`.  We embed these shallowly:

* the filesystem is an explicit environment `Env`: `ReadDir` results and
  the outcomes of the mutating calls (`Mkdir`, `MkdirAll`, `RemoveAll`,
  `Rename`) and of `UserHomeDir`;
* Go `int` fields become `Int`; Go strings become `String` (byte-level
  operations such as `start[1:]` are rendered at character level, which
  coincides on the ASCII data the program manipulates);
* Go slice indexing `xs[i]` is a runtime panic when out of range, so the
  event step returns `Option (Model × Bool)`, `none` standing for a
  panic and the `Bool` for a `tea.Quit` command;
* `filepath.Base`, `filepath.Dir` and `filepath.Join` are modelled for
  Unix paths without `.`/`..` segments (the forms the program produces);
* `sort.Strings` sorts ascending by byte order; since equal strings are
  identical the sorted result is the unique ascending reordering,
  modelled by insertion sort over the byte-order comparison `goLe`;
* the `strings` package helpers (`ToLower`, `TrimSpace`, `Fields`,
  `HasPrefix`, `HasSuffix`, `Contains`) are rendered as character-list
  functions so that every definition evaluates inside the kernel; Go's
  versions are Unicode-aware where these are ASCII-aware, which agrees
  on the data involved.
-/

set_option linter.unusedVariables false
set_option linter.unnecessarySeqFocus false

/-- One result row of `os.ReadDir`: a directory entry name and whether it
is a directory. -/
structure FsEntry where
  name : String
  isDir : Bool
deriving Repr, DecidableEq

/-- The readable filesystem: `os.ReadDir` per path; `none` is a read
error, which `loadDir` degrades to an empty entry list. -/
def FS : Type := String → Option (List FsEntry)

/-- Outcomes of the impure calls made during one `Update` step. `none`
for an error field means the call succeeded; `some msg` carries the text
of `err.Error()`. -/
structure Env where
  fs : FS
  home : Option String
  mkdirErr : Option String
  mkdirAllErr : Option String
  removeErr : Option String
  renameErr : Option String

/-- The `model` struct of `main.go`, field for field. -/
structure Model where
  items : List String
  paths : List String
  cursor : Int
  filter : String
  selected : String
  root : String
  height : Int
  offset : Int
  showHelp : Bool
  confirmDelete : Bool
  deleteTarget : String
  deleteError : String
  createMode : Bool
  newFolderName : String
  createError : String
  confirmArchive : Bool
  archiveTarget : String
  archiveError : String
deriving Repr, DecidableEq, Inhabited

/-- The `item` struct: one row of the filtered view. -/
structure Item where
  name : String
  path : String
deriving Repr, DecidableEq

/-- Go `filepath.Base` on Unix paths: empty path gives ".", trailing
slashes are dropped, the last component is returned, and an all-slash
path gives "/". -/
def goBase (p : String) : String :=
  if p == "" then "." else
  let cs := p.toList.reverse.dropWhile (fun c => c == '/')
  if cs.isEmpty then "/" else
  (cs.takeWhile (fun c => !(c == '/'))).reverse.asString

/-- Go `filepath.Dir` on Unix paths without dot segments: everything
before the final slash with trailing slashes removed, "/" when only the
leading slash remains, "." when there is no slash. -/
def goDir (p : String) : String :=
  let r := p.toList.reverse.dropWhile (fun c => !(c == '/'))
  if r.isEmpty then "." else
  let r2 := r.dropWhile (fun c => c == '/')
  if r2.isEmpty then "/" else r2.reverse.asString

/-- Byte-order `≤` on strings, as Go compares them (UTF-8 byte order and
code-point order agree). -/
def listLe : List Char → List Char → Bool
  | [], _ => true
  | _ :: _, [] => false
  | a :: as, b :: bs => decide (a < b) || (a == b && listLe as bs)

/-- Go string comparison `s <= t`. -/
def goLe (s t : String) : Bool := listLe s.toList t.toList

/-- `strings.ToLower` (ASCII case mapping). -/
def goToLower (s : String) : String := (s.toList.map Char.toLower).asString

/-- `strings.TrimSpace`: drop whitespace from both ends. -/
def goTrim (s : String) : String :=
  ((s.toList.dropWhile Char.isWhitespace).reverse.dropWhile Char.isWhitespace).reverse.asString

/-- `strings.HasPrefix s pre`. -/
def goStartsWith (s pre : String) : Bool := pre.toList.isPrefixOf s.toList

/-- `strings.HasSuffix s suf`. -/
def goEndsWith (s suf : String) : Bool := suf.toList.isSuffixOf s.toList

/-- Go `filepath.Join dir name` for a cleaned directory and a plain child
name: concatenation with a "/" separator (no extra slash after "/" or
after a trailing slash).  Join's dot-segment cleaning is not needed on
these inputs. -/
def goJoin (dir name : String) : String :=
  if dir == "" then name
  else if goEndsWith dir "/" then dir ++ name
  else dir ++ "/" ++ name

/-- `sort.Strings`, ascending by byte order.  Go's sort is unstable, but
equal keys are identical strings, so the ascending reordering it
produces is exactly this one. -/
def sortStrings (l : List String) : List String :=
  List.insertionSort (fun a b => goLe a b = true) l

/-- `strings.Contains s sub` over character lists: `sub` occurs
contiguously in `s`. -/
def containsSub : List Char → List Char → Bool
  | [], sub => sub.isEmpty
  | c :: t, sub => sub.isPrefixOf (c :: t) || containsSub t sub

/-- Helper for `goFields`: accumulate the current word (reversed) while
scanning. -/
def fieldsAux : List Char → List Char → List (List Char)
  | [], acc => if acc.isEmpty then [] else [acc.reverse]
  | c :: cs, acc =>
    if c.isWhitespace then
      if acc.isEmpty then fieldsAux cs [] else acc.reverse :: fieldsAux cs []
    else fieldsAux cs (c :: acc)

/-- `strings.Fields`: split on whitespace runs, dropping empty pieces. -/
def goFields (s : String) : List String :=
  (fieldsAux s.toList []).map List.asString

/-- The entry-retention test of `loadDir`'s read loop: keep directories
whose name does not start with "." and is not `node_modules`/`vendor`. -/
def keepEntry (e : FsEntry) : Bool :=
  e.isDir && !(goStartsWith e.name ".") &&
    !(e.name == "node_modules") && !(e.name == "vendor")

/-- `loadDir` of `main.go`: the synthetic self-entry first, then the kept
child directory names sorted ascending, with paths joined under `root`.
A failed `ReadDir` contributes no children. -/
def loadDir (fs : FS) (root : String) : List String × List String :=
  let currentName := goBase root
  let currentName := if root == "/" then "/" else currentName
  let items0 := ["[" ++ currentName ++ "]"]
  let paths0 := [root]
  let entries := (fs root).getD []
  let dirs := (entries.filter keepEntry).map (fun e => e.name)
  let sorted := sortStrings dirs
  (items0 ++ sorted, paths0 ++ sorted.map (fun d => goJoin root d))

/-- The item rows of the unfiltered listing: `m.items` zipped with
`m.paths` (the Go loop indexes `m.paths` by the position in `m.items`;
the two lists always have equal length). -/
def itemsOf (m : Model) : List Item :=
  (m.items.zip m.paths).map (fun np => { name := np.1, path := np.2 })

/-- `model.filtered` of `main.go`: identity for an empty trimmed query,
otherwise the rows whose lowercased name contains every field of the
lowercased trimmed query. -/
def filteredM (m : Model) : List Item :=
  let f := goToLower (goTrim m.filter)
  if f == "" then itemsOf m
  else
    let words := goFields f
    (itemsOf m).filter
      (fun it => words.all (fun w => containsSub (goToLower it.name).toList w.toList))

/-- `model.visibleLines`: list window height, floored at 5. -/
def visibleLines (m : Model) : Int :=
  let reserved : Int := 5
  if m.height ≤ reserved then 5 else m.height - reserved

/-- `model.fixScroll`: clamp the scroll offset so the cursor is inside
the visible window. -/
def fixScroll (m : Model) : Model :=
  let visible := visibleLines m
  let m1 := if m.cursor < m.offset then {m with offset := m.cursor} else m
  if m1.cursor ≥ m1.offset + visible then {m1 with offset := m1.cursor - visible + 1}
  else m1

/-- The error-clearing block run on every key outside the modal
branches. -/
def clearMsgs (m : Model) : Model :=
  let m1 := if m.deleteError != "" then {m with deleteError := ""} else m
  let m2 := if m1.createError != "" then {m1 with createError := ""} else m1
  if m2.archiveError != "" then {m2 with archiveError := ""} else m2

/-- Go slice indexing `xs[i]` with an `int` index: `none` is the
out-of-range runtime panic. -/
def goIndex (l : List Item) (i : Int) : Option Item :=
  if i < 0 then none else l.get? i.toNat

/-- The go-to-parent block, written out verbatim twice in the source (in
the `esc` case and in the `enter`-on-self-entry case): move to the
parent directory if there is one, clear the filter, reload, and land the
cursor back on the directory just departed. -/
def parentNav (env : Env) (m : Model) : Model :=
  let parent := goDir m.root
  if parent != m.root then
    let previousFolder := m.root
    let pr := loadDir env.fs parent
    let m1 := {m with root := parent, filter := "", items := pr.1, paths := pr.2,
                      cursor := 0, offset := 0}
    match pr.2.findIdx? (fun p => p == previousFolder) with
    | some i => fixScroll {m1 with cursor := (i : Int)}
    | none => m1
  else m

/-- The `confirmArchive` branch of `Update` (a Go `switch` on the key,
rendered as a `match` on the key string). -/
def stepArchive (env : Env) (m : Model) (k : String) : Model × Bool :=
  match k with
  | "y" | "Y" =>
    let home := (env.home).getD ""
    let archiveDir := goJoin home "Dev-Archive"
    match env.mkdirAllErr with
    | some e =>
      ({m with archiveError := "Error creating archive dir: " ++ e,
               confirmArchive := false, archiveTarget := ""}, false)
    | none =>
      let folderName := goBase m.archiveTarget
      let destPath := goJoin archiveDir folderName
      match env.renameErr with
      | some e =>
        ({m with archiveError := "Error: " ++ e,
                 confirmArchive := false, archiveTarget := ""}, false)
      | none =>
        let pr := loadDir env.fs m.root
        ({m with items := pr.1, paths := pr.2, cursor := 0, offset := 0,
                 confirmArchive := false, archiveTarget := "", archiveError := ""}, false)
  | "n" | "N" | "esc" =>
    ({m with confirmArchive := false, archiveTarget := ""}, false)
  | "ctrl+c" => (m, true)
  | _ => (m, false)

/-- The `confirmDelete` branch of `Update`. -/
def stepDelete (env : Env) (m : Model) (k : String) : Model × Bool :=
  match k with
  | "y" | "Y" =>
    match env.removeErr with
    | some e =>
      ({m with deleteError := "Error: " ++ e,
               confirmDelete := false, deleteTarget := ""}, false)
    | none =>
      let pr := loadDir env.fs m.root
      ({m with items := pr.1, paths := pr.2, cursor := 0, offset := 0,
               confirmDelete := false, deleteTarget := "", deleteError := ""}, false)
  | "n" | "N" | "esc" =>
    ({m with confirmDelete := false, deleteTarget := ""}, false)
  | "ctrl+c" => (m, true)
  | _ => (m, false)

/-- The `createMode` branch of `Update`. -/
def stepCreate (env : Env) (m : Model) (k : String) : Model × Bool :=
  match k with
  | "enter" =>
    if m.newFolderName != "" then
      let newPath := goJoin m.root m.newFolderName
      match env.mkdirErr with
      | some e =>
        ({m with createError := "Error: " ++ e,
                 createMode := false, newFolderName := ""}, false)
      | none =>
        let pr := loadDir env.fs m.root
        let m1 := {m with items := pr.1, paths := pr.2, cursor := 0, offset := 0}
        let m2 := match pr.2.findIdx? (fun p => p == newPath) with
          | some i => fixScroll {m1 with cursor := (i : Int)}
          | none => m1
        ({m2 with createMode := false, newFolderName := "", createError := ""}, false)
    else (m, false)
  | "esc" =>
    ({m with createMode := false, newFolderName := ""}, false)
  | "ctrl+c" => (m, true)
  | "backspace" =>
    (if m.newFolderName.length > 0 then {m with newFolderName := m.newFolderName.dropRight 1}
     else m, false)
  | _ =>
    (if k.length == 1 && goLe " " k then {m with newFolderName := m.newFolderName ++ k}
     else m, false)

/-- The browsing `switch` of `Update`, run when no modal flag is set and
after error clearing; `filtered` is the view computed on entry to the
key handler.  `none` models the index-out-of-range panic of
`filtered[m.cursor]`. -/
def stepBrowse (env : Env) (m : Model) (k : String) (filtered : List Item) :
    Option (Model × Bool) :=
  match k with
  | "ctrl+c" => some (m, true)
  | "f1" => some ({m with showHelp := !m.showHelp}, false)
  | "esc" =>
    if m.showHelp then some ({m with showHelp := false}, false)
    else some (parentNav env m, false)
  | "up" =>
    some (if m.cursor > 0 then fixScroll {m with cursor := m.cursor - 1} else m, false)
  | "down" =>
    some (if m.cursor < (filtered.length : Int) - 1 then fixScroll {m with cursor := m.cursor + 1}
          else m, false)
  | "enter" =>
    if (filtered.length : Int) > 0 then
      match goIndex filtered m.cursor with
      | none => none
      | some it =>
        if it.path == m.root then some (parentNav env m, false)
        else
          let pr := loadDir env.fs it.path
          some ({m with root := it.path, filter := "", items := pr.1, paths := pr.2,
                        cursor := 0, offset := 0}, false)
    else some (m, false)
  | "tab" =>
    if (filtered.length : Int) > 0 then
      match goIndex filtered m.cursor with
      | none => none
      | some it => some ({m with selected := it.path}, true)
    else some (m, false)
  | "alt+backspace" | "ctrl+backspace" =>
    if (filtered.length : Int) > 0 then
      match goIndex filtered m.cursor with
      | none => none
      | some it =>
        if it.path != m.root && it.path != "/" then
          some ({m with confirmDelete := true, deleteTarget := it.path}, false)
        else some (m, false)
    else some (m, false)
  | "ctrl+n" =>
    some ({m with createMode := true, newFolderName := ""}, false)
  | "ctrl+a" =>
    if (filtered.length : Int) > 0 then
      match goIndex filtered m.cursor with
      | none => none
      | some it =>
        if it.path != m.root && it.path != "/" then
          some ({m with confirmArchive := true, archiveTarget := it.path}, false)
        else some (m, false)
    else some (m, false)
  | "backspace" =>
    some (if m.filter.length > 0 then
            {m with filter := m.filter.dropRight 1, cursor := 0, offset := 0}
          else m, false)
  | _ =>
    some (if k.length == 1 && goLe " " k then
            {m with filter := m.filter ++ k, cursor := 0, offset := 0}
          else m, false)

/-- Input events reaching `Update`: a terminal resize or a key press
named by `msg.String()`. -/
inductive Event where
  | winSize (h : Int)
  | key (k : String)
deriving Repr, DecidableEq

/-- `model.Update`: the whole event step.  The result `Bool` is `true`
when the step returns the `tea.Quit` command; `none` models a runtime
panic. -/
def stepM (env : Env) (m : Model) (msg : Event) : Option (Model × Bool) :=
  match msg with
  | .winSize h => some ({m with height := h}, false)
  | .key k =>
    let filtered := filteredM m
    if m.confirmArchive then some (stepArchive env m k)
    else if m.confirmDelete then some (stepDelete env m k)
    else if m.createMode then some (stepCreate env m k)
    else stepBrowse env (clearMsgs m) k filtered

/-- `newModel`: resolve the start path (`cwd` is the `os.Getwd` result,
used for an empty argument; `~` and `~/...` expand through
`os.UserHomeDir`, whose failure yields the empty string) and load it.
All remaining fields are the Go zero values. -/
def newModel (env : Env) (cwd : String) (start0 : String) : Model :=
  let start := if start0 == "" then cwd else start0
  let start := if start == "~" then (env.home).getD "" else start
  let start := if goStartsWith start "~/" then ((env.home).getD "") ++ start.drop 1 else start
  let pr := loadDir env.fs start
  { root := start, items := pr.1, paths := pr.2,
    cursor := 0, filter := "", selected := "", height := 0, offset := 0,
    showHelp := false, confirmDelete := false, deleteTarget := "", deleteError := "",
    createMode := false, newFolderName := "", createError := "",
    confirmArchive := false, archiveTarget := "", archiveError := "" }

/-- The event loop: feed events (each paired with the environment in
force when it is processed) until `tea.Quit` (`Bool` result `true`), a
panic (`none`), or the end of the event list. -/
def runEvents (m : Model) : List (Env × Event) → Option (Model × Bool)
  | [] => some (m, false)
  | ee :: es =>
    match stepM ee.1 m ee.2 with
    | none => none
    | some (m', q) => if q then some (m', true) else runEvents m' es

/-- What `main` prints to stdout after the loop: the selected path when
non-empty, otherwise nothing (a panic also prints nothing there; all
rendering goes to stderr). -/
def progOut (r : Option (Model × Bool)) : Option String :=
  match r with
  | none => none
  | some (mf, _) => if mf.selected != "" then some mf.selected else none

/-- The program's stdout as a function of the start argument and the
event trace. -/
def programOutput (env0 : Env) (cwd arg : String) (evs : List (Env × Event)) :
    Option String :=
  progOut (runEvents (newModel env0 cwd arg) evs)

/-- The safety contract of the two confirmation modals: whenever a
confirmation flag is set, its stored target is neither the current root
nor the filesystem root "/". -/
def targetGuard (m : Model) : Prop :=
  (m.confirmDelete = true → m.deleteTarget ≠ m.root ∧ m.deleteTarget ≠ "/") ∧
  (m.confirmArchive = true → m.archiveTarget ≠ m.root ∧ m.archiveTarget ≠ "/")

/-! ### Concrete fixtures used by witnesses and counterexamples -/

/-- A filesystem with one directory `/r` holding the subdirectory `ab`. -/
def fsEx : FS := fun s => if s == "/r" then some [⟨"ab", true⟩] else none

/-- An environment over `fsEx` where every mutation succeeds. -/
def envEx : Env :=
  { fs := fsEx, home := some "/h", mkdirErr := none, mkdirAllErr := none,
    removeErr := none, renameErr := none }

/-- `fsEx` after a folder `b` has been created under `/r`. -/
def fsEx2 : FS := fun s => if s == "/r" then some [⟨"ab", true⟩, ⟨"b", true⟩] else none

/-- An all-success environment over `fsEx2`. -/
def envEx2 : Env := { envEx with fs := fsEx2 }

/-- `envEx` with an unresolvable home directory. -/
def envNoHome : Env := { envEx with home := none }

/-- Type a filter `a`, open the create-folder modal, type `b`, confirm. -/
def evsC2 : List (Env × Event) :=
  [(envEx, .key "a"), (envEx, .key "ctrl+n"), (envEx, .key "b"), (envEx2, .key "enter")]

/-- Move the cursor to the first child, then request deletion. -/
def evsC1 : List (Env × Event) :=
  [(envEx, .key "down"), (envEx, .key "alt+backspace")]

/-- The state reached by `evsC1` from the start state over `/r`. -/
def mfC1 : Model := ((runEvents (newModel envEx "/c" "/r") evsC1).getD default).1

/-- A browsing state with the help screen open and the cursor on the
second row. -/
def mEx3 : Model :=
  { newModel envEx "/c" "/r" with showHelp := true, cursor := 1 }

/-- A whitespace-only filter over the `/r` listing. -/
def mEx4 : Model := { newModel envEx "/c" "/r" with filter := "   " }

/-- The spec's multi-word example rows under a `my proj` query. -/
def mEx4b : Model :=
  { newModel envEx "/c" "/r" with
      items := ["my-project", "project-my-app", "project-app"],
      paths := ["/p/my-project", "/p/project-my-app", "/p/project-app"],
      filter := "my proj" }

/-- A browsing state rooted below the filesystem root. -/
def mEx7 : Model := newModel envEx "/c" "/r/ab"

/-- A browsing state at the filesystem root with a pending delete error
message. -/
def mEx7b : Model :=
  { newModel envEx "/c" "/" with deleteError := "Error: boom" }

/-- The create-folder modal with an empty draft, over a filter typed
beforehand. -/
def mEx9 : Model :=
  { newModel envEx "/c" "/r" with createMode := true, newFolderName := "", filter := "ab" }

/-- A pending delete confirmation with an active filter. -/
def mEx10 : Model :=
  { newModel envEx "/c" "/r" with confirmDelete := true, deleteTarget := "/r/ab", filter := "ab" }

/-- A pending archive confirmation with an active filter. -/
def mEx10b : Model :=
  { newModel envEx "/c" "/r" with confirmArchive := true, archiveTarget := "/r/ab", filter := "ab" }

/-! ### Frame lemmas for the small state transformers -/

@[simp] theorem fixScroll_items (m : Model) : (fixScroll m).items = m.items := by
  simp only [fixScroll]; split_ifs <;> rfl

@[simp] theorem fixScroll_paths (m : Model) : (fixScroll m).paths = m.paths := by
  simp only [fixScroll]; split_ifs <;> rfl

@[simp] theorem fixScroll_cursor (m : Model) : (fixScroll m).cursor = m.cursor := by
  simp only [fixScroll]; split_ifs <;> rfl

@[simp] theorem fixScroll_filter (m : Model) : (fixScroll m).filter = m.filter := by
  simp only [fixScroll]; split_ifs <;> rfl

@[simp] theorem fixScroll_selected (m : Model) : (fixScroll m).selected = m.selected := by
  simp only [fixScroll]; split_ifs <;> rfl

@[simp] theorem fixScroll_root (m : Model) : (fixScroll m).root = m.root := by
  simp only [fixScroll]; split_ifs <;> rfl

@[simp] theorem fixScroll_height (m : Model) : (fixScroll m).height = m.height := by
  simp only [fixScroll]; split_ifs <;> rfl

@[simp] theorem fixScroll_showHelp (m : Model) : (fixScroll m).showHelp = m.showHelp := by
  simp only [fixScroll]; split_ifs <;> rfl

@[simp] theorem fixScroll_confirmDelete (m : Model) :
    (fixScroll m).confirmDelete = m.confirmDelete := by
  simp only [fixScroll]; split_ifs <;> rfl

@[simp] theorem fixScroll_deleteTarget (m : Model) :
    (fixScroll m).deleteTarget = m.deleteTarget := by
  simp only [fixScroll]; split_ifs <;> rfl

@[simp] theorem fixScroll_deleteError (m : Model) :
    (fixScroll m).deleteError = m.deleteError := by
  simp only [fixScroll]; split_ifs <;> rfl

@[simp] theorem fixScroll_createMode (m : Model) : (fixScroll m).createMode = m.createMode := by
  simp only [fixScroll]; split_ifs <;> rfl

@[simp] theorem fixScroll_newFolderName (m : Model) :
    (fixScroll m).newFolderName = m.newFolderName := by
  simp only [fixScroll]; split_ifs <;> rfl

@[simp] theorem fixScroll_createError (m : Model) :
    (fixScroll m).createError = m.createError := by
  simp only [fixScroll]; split_ifs <;> rfl

@[simp] theorem fixScroll_confirmArchive (m : Model) :
    (fixScroll m).confirmArchive = m.confirmArchive := by
  simp only [fixScroll]; split_ifs <;> rfl

@[simp] theorem fixScroll_archiveTarget (m : Model) :
    (fixScroll m).archiveTarget = m.archiveTarget := by
  simp only [fixScroll]; split_ifs <;> rfl

@[simp] theorem fixScroll_archiveError (m : Model) :
    (fixScroll m).archiveError = m.archiveError := by
  simp only [fixScroll]; split_ifs <;> rfl

@[simp] theorem clearMsgs_items (m : Model) : (clearMsgs m).items = m.items := by
  simp only [clearMsgs]; split_ifs <;> rfl

@[simp] theorem clearMsgs_paths (m : Model) : (clearMsgs m).paths = m.paths := by
  simp only [clearMsgs]; split_ifs <;> rfl

@[simp] theorem clearMsgs_cursor (m : Model) : (clearMsgs m).cursor = m.cursor := by
  simp only [clearMsgs]; split_ifs <;> rfl

@[simp] theorem clearMsgs_filter (m : Model) : (clearMsgs m).filter = m.filter := by
  simp only [clearMsgs]; split_ifs <;> rfl

@[simp] theorem clearMsgs_selected (m : Model) : (clearMsgs m).selected = m.selected := by
  simp only [clearMsgs]; split_ifs <;> rfl

@[simp] theorem clearMsgs_root (m : Model) : (clearMsgs m).root = m.root := by
  simp only [clearMsgs]; split_ifs <;> rfl

@[simp] theorem clearMsgs_height (m : Model) : (clearMsgs m).height = m.height := by
  simp only [clearMsgs]; split_ifs <;> rfl

@[simp] theorem clearMsgs_offset (m : Model) : (clearMsgs m).offset = m.offset := by
  simp only [clearMsgs]; split_ifs <;> rfl

@[simp] theorem clearMsgs_showHelp (m : Model) : (clearMsgs m).showHelp = m.showHelp := by
  simp only [clearMsgs]; split_ifs <;> rfl

@[simp] theorem clearMsgs_confirmDelete (m : Model) :
    (clearMsgs m).confirmDelete = m.confirmDelete := by
  simp only [clearMsgs]; split_ifs <;> rfl

@[simp] theorem clearMsgs_deleteTarget (m : Model) :
    (clearMsgs m).deleteTarget = m.deleteTarget := by
  simp only [clearMsgs]; split_ifs <;> rfl

@[simp] theorem clearMsgs_createMode (m : Model) : (clearMsgs m).createMode = m.createMode := by
  simp only [clearMsgs]; split_ifs <;> rfl

@[simp] theorem clearMsgs_newFolderName (m : Model) :
    (clearMsgs m).newFolderName = m.newFolderName := by
  simp only [clearMsgs]; split_ifs <;> rfl

@[simp] theorem clearMsgs_confirmArchive (m : Model) :
    (clearMsgs m).confirmArchive = m.confirmArchive := by
  simp only [clearMsgs]; split_ifs <;> rfl

@[simp] theorem clearMsgs_archiveTarget (m : Model) :
    (clearMsgs m).archiveTarget = m.archiveTarget := by
  simp only [clearMsgs]; split_ifs <;> rfl

@[simp] theorem clearMsgs_deleteError (m : Model) : (clearMsgs m).deleteError = "" := by
  simp only [clearMsgs]; split_ifs <;> simp_all

@[simp] theorem clearMsgs_createError (m : Model) : (clearMsgs m).createError = "" := by
  simp only [clearMsgs]; split_ifs <;> simp_all

@[simp] theorem clearMsgs_archiveError (m : Model) : (clearMsgs m).archiveError = "" := by
  simp only [clearMsgs]; split_ifs <;> simp_all

@[simp] theorem parentNav_selected (env : Env) (m : Model) :
    (parentNav env m).selected = m.selected := by
  simp only [parentNav]; split_ifs <;> try rfl
  split <;> simp

@[simp] theorem parentNav_height (env : Env) (m : Model) :
    (parentNav env m).height = m.height := by
  simp only [parentNav]; split_ifs <;> try rfl
  split <;> simp

@[simp] theorem parentNav_showHelp (env : Env) (m : Model) :
    (parentNav env m).showHelp = m.showHelp := by
  simp only [parentNav]; split_ifs <;> try rfl
  split <;> simp

@[simp] theorem parentNav_confirmDelete (env : Env) (m : Model) :
    (parentNav env m).confirmDelete = m.confirmDelete := by
  simp only [parentNav]; split_ifs <;> try rfl
  split <;> simp

@[simp] theorem parentNav_deleteTarget (env : Env) (m : Model) :
    (parentNav env m).deleteTarget = m.deleteTarget := by
  simp only [parentNav]; split_ifs <;> try rfl
  split <;> simp

@[simp] theorem parentNav_deleteError (env : Env) (m : Model) :
    (parentNav env m).deleteError = m.deleteError := by
  simp only [parentNav]; split_ifs <;> try rfl
  split <;> simp

@[simp] theorem parentNav_createMode (env : Env) (m : Model) :
    (parentNav env m).createMode = m.createMode := by
  simp only [parentNav]; split_ifs <;> try rfl
  split <;> simp

@[simp] theorem parentNav_newFolderName (env : Env) (m : Model) :
    (parentNav env m).newFolderName = m.newFolderName := by
  simp only [parentNav]; split_ifs <;> try rfl
  split <;> simp

@[simp] theorem parentNav_createError (env : Env) (m : Model) :
    (parentNav env m).createError = m.createError := by
  simp only [parentNav]; split_ifs <;> try rfl
  split <;> simp

@[simp] theorem parentNav_confirmArchive (env : Env) (m : Model) :
    (parentNav env m).confirmArchive = m.confirmArchive := by
  simp only [parentNav]; split_ifs <;> try rfl
  split <;> simp

@[simp] theorem parentNav_archiveTarget (env : Env) (m : Model) :
    (parentNav env m).archiveTarget = m.archiveTarget := by
  simp only [parentNav]; split_ifs <;> try rfl
  split <;> simp

@[simp] theorem parentNav_archiveError (env : Env) (m : Model) :
    (parentNav env m).archiveError = m.archiveError := by
  simp only [parentNav]; split_ifs <;> try rfl
  split <;> simp

/-! ### C1: the delete/archive targets never name the current root or "/" -/

theorem stepArchive_targetGuard (env : Env) (m : Model) (k : String)
    (h : targetGuard m) : targetGuard (stepArchive env m k).1 := by
  unfold stepArchive
  (repeat' split) <;> simp_all [targetGuard]

theorem stepDelete_targetGuard (env : Env) (m : Model) (k : String)
    (h : targetGuard m) : targetGuard (stepDelete env m k).1 := by
  unfold stepDelete
  (repeat' split) <;> simp_all [targetGuard]

theorem stepCreate_targetGuard (env : Env) (m : Model) (k : String)
    (h : targetGuard m) : targetGuard (stepCreate env m k).1 := by
  unfold stepCreate
  (repeat' split) <;>
    first
      | (simp_all [targetGuard]; done)
      | (rcases hf : List.findIdx? (fun p => p == goJoin m.root m.newFolderName)
            (loadDir env.fs m.root).2 with _ | i <;>
          simp only [hf] <;> simp_all [targetGuard])

set_option maxHeartbeats 1000000 in
theorem stepBrowse_targetGuard (env : Env) (m : Model) (k : String)
    (filt : List Item) (hD : m.confirmDelete = false) (hA : m.confirmArchive = false)
    (m' : Model) (q : Bool) (hs : stepBrowse env m k filt = some (m', q)) :
    targetGuard m' := by
  unfold stepBrowse at hs
  (repeat' split at hs) <;> cases hs <;>
    simp_all [targetGuard, Bool.and_eq_true, bne_iff_ne]

theorem stepM_targetGuard (env : Env) (m : Model) (e : Event)
    (h : targetGuard m) (m' : Model) (q : Bool)
    (hs : stepM env m e = some (m', q)) : targetGuard m' := by
  cases e with
  | winSize hh =>
    simp only [stepM, Option.some.injEq, Prod.mk.injEq] at hs
    rcases hs with ⟨hs1, _⟩
    subst hs1
    exact ⟨fun hd => h.1 hd, fun ha => h.2 ha⟩
  | key k =>
    unfold stepM at hs
    by_cases hA : m.confirmArchive = true
    · simp only [hA, if_true] at hs
      injection hs with h2
      have hg := stepArchive_targetGuard env m k h
      rw [h2] at hg
      exact hg
    · rw [Bool.not_eq_true] at hA
      simp only [hA, Bool.false_eq_true, if_false] at hs
      by_cases hD : m.confirmDelete = true
      · simp only [hD, if_true] at hs
        injection hs with h2
        have hg := stepDelete_targetGuard env m k h
        rw [h2] at hg
        exact hg
      · rw [Bool.not_eq_true] at hD
        simp only [hD, Bool.false_eq_true, if_false] at hs
        by_cases hC : m.createMode = true
        · simp only [hC, if_true] at hs
          injection hs with h2
          have hg := stepCreate_targetGuard env m k h
          rw [h2] at hg
          exact hg
        · rw [Bool.not_eq_true] at hC
          simp only [hC, Bool.false_eq_true, if_false] at hs
          exact stepBrowse_targetGuard env (clearMsgs m) k (filteredM m)
            (by simp [hD]) (by simp [hA]) m' q hs

theorem runEvents_targetGuard (evs : List (Env × Event)) :
    ∀ m : Model, targetGuard m → ∀ mf : Model, ∀ q : Bool,
      runEvents m evs = some (mf, q) → targetGuard mf := by
  induction evs with
  | nil =>
    intro m h mf q hr
    simp only [runEvents, Option.some.injEq, Prod.mk.injEq] at hr
    rcases hr with ⟨h1, _⟩
    subst h1
    exact h
  | cons ee es ih =>
    intro m h mf q hr
    simp only [runEvents] at hr
    rcases hstep : stepM ee.1 m ee.2 with _ | ⟨m', q'⟩
    · rw [hstep] at hr
      cases hr
    · rw [hstep] at hr
      by_cases hq : q' = true
      · subst hq
        simp only [if_true, Option.some.injEq, Prod.mk.injEq] at hr
        rcases hr with ⟨h1, _⟩
        subst h1
        exact stepM_targetGuard ee.1 m ee.2 h _ _ hstep
      · rw [Bool.not_eq_true] at hq
        subst hq
        simp only [Bool.false_eq_true, if_false] at hr
        exact ih m' (stepM_targetGuard ee.1 m ee.2 h m' false hstep) mf q hr

/-- C1: from any start state, after any event sequence, whenever
`confirmDelete` or `confirmArchive` is set the stored target path
differs from the current root and from "/". -/
theorem c1_confirm_target_guard (env0 : Env) (cwd arg : String)
    (evs : List (Env × Event)) (mf : Model) (q : Bool)
    (hr : runEvents (newModel env0 cwd arg) evs = some (mf, q)) :
    targetGuard mf :=
  runEvents_targetGuard evs (newModel env0 cwd arg)
    (by simp [newModel, targetGuard]) mf q hr

/-- Witness for C1: a concrete run that ends inside the delete
confirmation modal, where the guard holds. -/
theorem c1_confirm_target_guard_witness :
    runEvents (newModel envEx "/c" "/r") evsC1 = some (mfC1, false) ∧
    mfC1.confirmDelete = true ∧ targetGuard mfC1 :=
  ⟨by decide, by decide,
    c1_confirm_target_guard envEx "/c" "/r" evsC1 mfC1 false (by decide)⟩

/-! ### C9: Enter in the create modal with an empty draft is a no-op -/

/-- C9: in the `CreateFolder` state, `enter` with an empty draft name
returns the state unchanged and no quit command, for every environment
(so no filesystem call can influence the result). -/
theorem c9_create_enter_empty_noop (env : Env) (m : Model)
    (hA : m.confirmArchive = false) (hD : m.confirmDelete = false)
    (hC : m.createMode = true) (hN : m.newFolderName = "") :
    stepM env m (Event.key "enter") = some (m, false) := by
  unfold stepM
  simp [hA, hD, hC, stepCreate, hN]

/-- Witness for C9 at a concrete create-modal state. -/
theorem c9_create_enter_empty_noop_witness :
    stepM envEx mEx9 (Event.key "enter") = some (mEx9, false) :=
  c9_create_enter_empty_noop envEx mEx9 (by decide) (by decide) (by decide) (by decide)

/-! ### C10: confirming delete/archive reloads but keeps the filter -/

/-- C10: a successful `y` on the delete (resp. archive) confirmation
reloads the current root's listing, resets cursor and offset to 0,
clears the modal, and leaves the filter text unchanged. -/
theorem c10_confirm_reload_keeps_filter (env : Env) (m : Model) :
    (m.confirmArchive = false → m.confirmDelete = true → env.removeErr = none →
      stepM env m (Event.key "y") =
        some ({m with items := (loadDir env.fs m.root).1, paths := (loadDir env.fs m.root).2,
                      cursor := 0, offset := 0,
                      confirmDelete := false, deleteTarget := "", deleteError := ""}, false) ∧
      (stepM env m (Event.key "y")).map (fun p => p.1.filter) = some m.filter) ∧
    (m.confirmArchive = true → env.mkdirAllErr = none → env.renameErr = none →
      stepM env m (Event.key "y") =
        some ({m with items := (loadDir env.fs m.root).1, paths := (loadDir env.fs m.root).2,
                      cursor := 0, offset := 0,
                      confirmArchive := false, archiveTarget := "", archiveError := ""}, false) ∧
      (stepM env m (Event.key "y")).map (fun p => p.1.filter) = some m.filter) := by
  constructor
  · intro hA hD hR
    have h1 : stepM env m (Event.key "y") =
        some ({m with items := (loadDir env.fs m.root).1, paths := (loadDir env.fs m.root).2,
                      cursor := 0, offset := 0,
                      confirmDelete := false, deleteTarget := "", deleteError := ""}, false) := by
      unfold stepM
      simp [hA, hD, stepDelete, hR]
    exact ⟨h1, by rw [h1]; rfl⟩
  · intro hA hMk hRn
    have h1 : stepM env m (Event.key "y") =
        some ({m with items := (loadDir env.fs m.root).1, paths := (loadDir env.fs m.root).2,
                      cursor := 0, offset := 0,
                      confirmArchive := false, archiveTarget := "", archiveError := ""}, false) := by
      unfold stepM
      simp [hA, stepArchive, hMk, hRn]
    exact ⟨h1, by rw [h1]; rfl⟩

/-- Witness for C10: concrete confirmations with a filter `ab` in place,
which survives both reloads. -/
theorem c10_confirm_reload_keeps_filter_witness :
    (stepM envEx mEx10 (Event.key "y")).map (fun p => p.1.filter) = some "ab" ∧
    (stepM envEx mEx10b (Event.key "y")).map (fun p => p.1.filter) = some "ab" :=
  ⟨((c10_confirm_reload_keeps_filter envEx mEx10).1 (by decide) (by decide) rfl).2,
   ((c10_confirm_reload_keeps_filter envEx mEx10b).2 (by decide) rfl rfl).2⟩

/-! ### C2: the cursor invariant is broken by create-with-filter -/

/-- C2 (code bug): from the start state over `/r`, the trace
filter `a`, `ctrl+n`, draft `b`, `enter` (creation succeeds) leaves
`cursor = 2` while the filtered view has length 1 — violating
`0 <= cursor < len(filtered)` — and a subsequent `enter` hits the
out-of-range slice index `filtered[m.cursor]` (a runtime panic, `none`
in the model). -/
theorem c2_cursor_invariant_violated :
    (runEvents (newModel envEx "/c" "/r") evsC2).map
        (fun p => (p.1.cursor, (filteredM p.1).length, p.2)) = some (2, 1, false) ∧
    (runEvents (newModel envEx "/c" "/r") evsC2).map
        (fun p => stepM envEx2 p.1 (Event.key "enter")) = some none :=
  ⟨by decide, by decide⟩

/-! ### C8: tilde expansion when the home directory is unresolvable -/

/-- C8 counterexample: with `UserHomeDir` failing, the start argument
`~/x` is not left as given — it becomes `/x` (the `~` is replaced by the
empty string the failed call returns). -/
theorem c8_tilde_no_home_cex :
    (newModel envNoHome "/c" "~/x").root = "/x" ∧
    (newModel envNoHome "/c" "~/x").root ≠ "~/x" :=
  ⟨by decide, by decide⟩

/-- C8 amended: when the home directory is unresolvable, tilde expansion
substitutes the empty string for the home: `~` yields the empty start
path and `~/x` yields `/x`; arguments not starting with a tilde pattern
are left as given. -/
theorem c8_tilde_no_home_amended (env : Env) (cwd : String) (hh : env.home = none) :
    (newModel env cwd "~").root = "" ∧
    (newModel env cwd "~/x").root = "/x" ∧
    (∀ s : String, (s == "") = false → (s == "~") = false →
      goStartsWith s "~/" = false → (newModel env cwd s).root = s) := by
  refine ⟨?_, ?_, ?_⟩
  · unfold newModel
    simp [hh]
  · unfold newModel
    simp [hh]
    decide
  · intro s h1 h2 h3
    unfold newModel
    simp [h1, h2, h3]

/-- Witness for C8's amended statement at concrete inputs. -/
theorem c8_tilde_no_home_amended_witness :
    (newModel envNoHome "/c" "~").root = "" ∧
    (newModel envNoHome "/c" "/abs").root = "/abs" :=
  ⟨(c8_tilde_no_home_amended envNoHome "/c" rfl).1,
   (c8_tilde_no_home_amended envNoHome "/c" rfl).2.2 "/abs" (by decide) (by decide) (by decide)⟩

/-! ### C3: the help screen is not strictly modal -/

/-- C3 counterexample: with Help showing, the `up` key (not the toggle,
Esc, or quit) does change the state — the cursor moves from 1 to 0 while
Help stays open. -/
theorem c3_help_not_modal_cex :
    mEx3.showHelp = true ∧ mEx3.cursor = 1 ∧
    (stepM envEx mEx3 (Event.key "up")).map (fun p => (p.1.cursor, p.1.showHelp)) =
      some (0, true) ∧
    stepM envEx mEx3 (Event.key "up") ≠ some (mEx3, false) :=
  ⟨by decide, by decide, by decide, by decide⟩

/-- C3 amended: while Help is showing, the toggle key and Esc close it
(after the usual error clearing) and the quit key terminates; but Help
is not strictly modal — the help flag is untouched by every key other
than `f1`/`esc`, and other keys still reach the Browsing handlers (for
instance `up` still moves the cursor with Help open). -/
theorem c3_help_keys (env : Env) (m : Model)
    (hA : m.confirmArchive = false) (hD : m.confirmDelete = false)
    (hC : m.createMode = false) (hH : m.showHelp = true) :
    stepM env m (Event.key "f1") = some ({clearMsgs m with showHelp := false}, false) ∧
    stepM env m (Event.key "esc") = some ({clearMsgs m with showHelp := false}, false) ∧
    stepM env m (Event.key "ctrl+c") = some (clearMsgs m, true) ∧
    stepM env m (Event.key "up") =
      some (if m.cursor > 0 then fixScroll {clearMsgs m with cursor := m.cursor - 1}
            else clearMsgs m, false) ∧
    (∀ (e : Event) (m' : Model) (q : Bool), stepM env m e = some (m', q) →
      m'.showHelp = m.showHelp ∨ e = Event.key "f1" ∨ e = Event.key "esc") := by
  refine ⟨?_, ?_, ?_, ?_, ?_⟩
  · unfold stepM stepBrowse
    simp [hA, hD, hC, hH]
  · unfold stepM stepBrowse
    simp [hA, hD, hC, hH]
  · unfold stepM stepBrowse
    simp [hA, hD, hC]
  · unfold stepM stepBrowse
    simp [hA, hD, hC]
  · intro e m' q hs
    cases e with
    | winSize hh =>
      left
      simp only [stepM, Option.some.injEq, Prod.mk.injEq] at hs
      rcases hs with ⟨h1, _⟩
      subst h1
      rfl
    | key k =>
      by_cases hk1 : k = "f1"
      · right; left; rw [hk1]
      by_cases hk2 : k = "esc"
      · right; right; rw [hk2]
      left
      unfold stepM at hs
      simp only [hA, hD, hC, Bool.false_eq_true, if_false] at hs
      unfold stepBrowse at hs
      (repeat' split at hs) <;> cases hs <;> simp_all

/-- Witness for C3's amended statement at a concrete help-screen state. -/
theorem c3_help_keys_witness :
    stepM envEx mEx3 (Event.key "f1") = some ({clearMsgs mEx3 with showHelp := false}, false) ∧
    stepM envEx mEx3 (Event.key "ctrl+c") = some (clearMsgs mEx3, true) :=
  ⟨(c3_help_keys envEx mEx3 (by decide) (by decide) (by decide) (by decide)).1,
   (c3_help_keys envEx mEx3 (by decide) (by decide) (by decide) (by decide)).2.2.1⟩

/-! ### C7: Esc navigates to the parent (and what happens at the root) -/

theorem parentNav_spec (env : Env) (m : Model) (hpar : goDir m.root ≠ m.root) :
    (parentNav env m).root = goDir m.root ∧
    (parentNav env m).filter = "" ∧
    (parentNav env m).items = (loadDir env.fs (goDir m.root)).1 ∧
    (parentNav env m).paths = (loadDir env.fs (goDir m.root)).2 ∧
    (∀ i : Nat,
      (loadDir env.fs (goDir m.root)).2.findIdx? (fun p => p == m.root) = some i →
        (parentNav env m).cursor = (i : Int)) ∧
    ((loadDir env.fs (goDir m.root)).2.findIdx? (fun p => p == m.root) = none →
      (parentNav env m).cursor = 0 ∧ (parentNav env m).offset = 0) := by
  unfold parentNav
  have hb : (goDir m.root != m.root) = true := by simp [bne_iff_ne, hpar]
  simp only [hb, if_true]
  rcases hf : (loadDir env.fs (goDir m.root)).2.findIdx? (fun p => p == m.root) with _ | i <;>
    simp only [hf] <;> simp_all

/-- C7 amended: in Browsing with Help hidden, Esc moves to the parent
directory when there is one — root becomes the parent, the filter is
cleared, the listing is reloaded, and the cursor lands on the entry
whose path is the departed directory (first match), or stays at 0 with
offset 0 when absent; when the parent equals the root the state is
unchanged except that pending error messages are cleared. -/
theorem c7_esc_parent (env : Env) (m : Model)
    (hA : m.confirmArchive = false) (hD : m.confirmDelete = false)
    (hC : m.createMode = false) (hH : m.showHelp = false) :
    (goDir m.root = m.root → stepM env m (Event.key "esc") = some (clearMsgs m, false)) ∧
    (goDir m.root ≠ m.root →
      ∃ m', stepM env m (Event.key "esc") = some (m', false) ∧
        m'.root = goDir m.root ∧ m'.filter = "" ∧
        m'.items = (loadDir env.fs (goDir m.root)).1 ∧
        m'.paths = (loadDir env.fs (goDir m.root)).2 ∧
        m'.selected = m.selected ∧ m'.showHelp = false ∧
        (∀ i : Nat,
          (loadDir env.fs (goDir m.root)).2.findIdx? (fun p => p == m.root) = some i →
            m'.cursor = (i : Int)) ∧
        ((loadDir env.fs (goDir m.root)).2.findIdx? (fun p => p == m.root) = none →
          m'.cursor = 0 ∧ m'.offset = 0)) := by
  constructor
  · intro hpar
    unfold stepM stepBrowse
    simp [hA, hD, hC, hH, parentNav, hpar]
  · intro hpar
    have hcm : goDir (clearMsgs m).root ≠ (clearMsgs m).root := by simpa using hpar
    obtain ⟨h1, h2, h3, h4, h5, h6⟩ := parentNav_spec env (clearMsgs m) hcm
    refine ⟨parentNav env (clearMsgs m), ?_, ?_, ?_, ?_, ?_, ?_, ?_, ?_, ?_⟩
    · unfold stepM stepBrowse
      simp [hA, hD, hC, hH]
    · simpa using h1
    · exact h2
    · simpa using h3
    · simpa using h4
    · simp [hH]
    · simp [hH]
    · intro i hi
      apply h5
      simpa using hi
    · intro hn
      apply h6
      simpa using hn

/-- C7 counterexample: at the filesystem root ("parent equals root")
with a pending error message, Esc does change the state — the message is
cleared before the switch, so "the state is unchanged" fails. -/
theorem c7_esc_at_root_clears_error_cex :
    mEx7b.root = "/" ∧ goDir mEx7b.root = mEx7b.root ∧ mEx7b.deleteError ≠ "" ∧
    stepM envEx mEx7b (Event.key "esc") ≠ some (mEx7b, false) ∧
    (stepM envEx mEx7b (Event.key "esc")).map (fun p => p.1.deleteError) = some "" :=
  ⟨by decide, by decide, by decide, by decide, by decide⟩

/-- Witness for C7's amended statement: Esc from `/r/ab` lands on `/r`. -/
theorem c7_esc_parent_witness :
    goDir mEx7.root ≠ mEx7.root ∧
    (∃ m', stepM envEx mEx7 (Event.key "esc") = some (m', false) ∧
      m'.root = goDir mEx7.root ∧ m'.filter = "" ∧
      m'.items = (loadDir envEx.fs (goDir mEx7.root)).1 ∧
      m'.paths = (loadDir envEx.fs (goDir mEx7.root)).2 ∧
      m'.selected = mEx7.selected ∧ m'.showHelp = false ∧
      (∀ i : Nat,
        (loadDir envEx.fs (goDir mEx7.root)).2.findIdx? (fun p => p == mEx7.root) = some i →
          m'.cursor = (i : Int)) ∧
      ((loadDir envEx.fs (goDir mEx7.root)).2.findIdx? (fun p => p == mEx7.root) = none →
        m'.cursor = 0 ∧ m'.offset = 0)) :=
  ⟨by decide,
   (c7_esc_parent envEx mEx7 (by decide) (by decide) (by decide) (by decide)).2 (by decide)⟩

/-! ### C4: the filter is an exact conjunctive-substring subsequence -/

theorem isPrefixOf_iff_exists : ∀ (a b : List Char), a.isPrefixOf b = true ↔ ∃ t, a ++ t = b
  | [], b => by simp [List.isPrefixOf]
  | a :: as, [] => by simp [List.isPrefixOf]
  | a :: as, b :: bs => by
    simp only [List.isPrefixOf, Bool.and_eq_true, beq_iff_eq, List.cons_append,
      List.cons.injEq]
    constructor
    · rintro ⟨rfl, h⟩
      rcases (isPrefixOf_iff_exists as bs).1 h with ⟨t, rfl⟩
      exact ⟨t, rfl, rfl⟩
    · rintro ⟨t, rfl, h⟩
      exact ⟨rfl, (isPrefixOf_iff_exists as bs).2 ⟨t, h⟩⟩

theorem containsSub_iff_exists : ∀ (s sub : List Char),
    containsSub s sub = true ↔ ∃ a b, a ++ (sub ++ b) = s
  | [], sub => by
    simp only [containsSub, List.isEmpty_iff]
    constructor
    · rintro rfl
      exact ⟨[], [], rfl⟩
    · rintro ⟨a, b, h⟩
      rcases List.append_eq_nil.1 h with ⟨rfl, h2⟩
      exact (List.append_eq_nil.1 h2).1
  | c :: t, sub => by
    simp only [containsSub, Bool.or_eq_true, isPrefixOf_iff_exists,
      containsSub_iff_exists t sub]
    constructor
    · rintro (⟨tl, h⟩ | ⟨a, b, h⟩)
      · exact ⟨[], tl, by simpa using h⟩
      · refine ⟨c :: a, b, ?_⟩
        simp [h]
    · rintro ⟨a, b, h⟩
      cases a with
      | nil =>
        left
        exact ⟨b, by simpa using h⟩
      | cons x xs =>
        right
        simp only [List.cons_append, List.cons.injEq] at h
        exact ⟨xs, b, h.2⟩

/-- C4: for every state, the filtered view is (i) a sublist of the
listing, (ii) exactly the rows passing the all-words-substring test on
the lowercased trimmed query, (iii) membership is equivalent to "in the
listing and every query token occurs contiguously in the lowercased
name", and (iv) a whitespace-only (or empty) query leaves the listing
unchanged, self-entry included. -/
theorem c4_filter_spec (m : Model) :
    List.Sublist (filteredM m) (itemsOf m) ∧
    filteredM m = (itemsOf m).filter
      (fun it => (goFields (goToLower (goTrim m.filter))).all
        (fun w => containsSub (goToLower it.name).toList w.toList)) ∧
    (∀ it : Item, it ∈ filteredM m ↔ it ∈ itemsOf m ∧
      ∀ w ∈ goFields (goToLower (goTrim m.filter)),
        ∃ a b : List Char, a ++ (w.toList ++ b) = (goToLower it.name).toList) ∧
    (goTrim m.filter = "" → filteredM m = itemsOf m) := by
  have hfil : filteredM m = (itemsOf m).filter
      (fun it => (goFields (goToLower (goTrim m.filter))).all
        (fun w => containsSub (goToLower it.name).toList w.toList)) := by
    unfold filteredM
    by_cases hc : (goToLower (goTrim m.filter) == "") = true
    · rw [beq_iff_eq] at hc
      simp [hc, goFields, fieldsAux, List.filter_true]
    · rw [Bool.not_eq_true] at hc
      simp [hc]
  refine ⟨?_, hfil, ?_, ?_⟩
  · rw [hfil]
    exact List.filter_sublist _
  · intro it
    rw [hfil]
    simp [List.mem_filter, List.all_eq_true, containsSub_iff_exists]
  · intro h
    unfold filteredM
    have h2 : goToLower (goTrim m.filter) = "" := by rw [h]; rfl
    simp [h2]

/-- Witness for C4: a whitespace-only filter is the identity, and the
spec's multi-word example — query `my proj` keeps `my-project` and
`project-my-app` but drops `project-app`. -/
theorem c4_filter_spec_witness :
    goTrim mEx4.filter = "" ∧ filteredM mEx4 = itemsOf mEx4 ∧
    filteredM mEx4b =
      [⟨"my-project", "/p/my-project"⟩, ⟨"project-my-app", "/p/project-my-app"⟩] :=
  ⟨by decide, (c4_filter_spec mEx4).2.2.2 (by decide), by decide⟩

/-! ### C5: loadDir's shape — self-entry first, filtered sorted children -/

theorem listLe_total : ∀ a b : List Char, listLe a b = true ∨ listLe b a = true
  | [], _ => Or.inl rfl
  | _ :: _, [] => Or.inr rfl
  | a :: as, b :: bs => by
    simp only [listLe, Bool.or_eq_true, Bool.and_eq_true, decide_eq_true_eq, beq_iff_eq]
    rcases lt_trichotomy a b with h | h | h
    · exact Or.inl (Or.inl h)
    · subst h
      rcases listLe_total as bs with ih | ih
      · exact Or.inl (Or.inr ⟨rfl, ih⟩)
      · exact Or.inr (Or.inr ⟨rfl, ih⟩)
    · exact Or.inr (Or.inl h)

theorem listLe_trans : ∀ a b c : List Char,
    listLe a b = true → listLe b c = true → listLe a c = true
  | [], _, _ => fun _ _ => rfl
  | a :: as, [], c => fun h _ => by cases h
  | a :: as, b :: bs, [] => fun _ h => by cases h
  | a :: as, b :: bs, c :: cs => by
    simp only [listLe, Bool.or_eq_true, Bool.and_eq_true, decide_eq_true_eq, beq_iff_eq]
    rintro (h1 | ⟨rfl, h1⟩) (h2 | ⟨rfl, h2⟩)
    · exact Or.inl (lt_trans h1 h2)
    · exact Or.inl h1
    · exact Or.inl h2
    · exact Or.inr ⟨rfl, listLe_trans as bs cs h1 h2⟩

instance : IsTotal String (fun a b => goLe a b = true) :=
  ⟨fun a b => listLe_total a.toList b.toList⟩

instance : IsTrans String (fun a b => goLe a b = true) :=
  ⟨fun a b c => listLe_trans a.toList b.toList c.toList⟩

/-- C5: for every filesystem and directory `D`, the first entry of
`loadDir` has path `D` and the bracketed base name of `D`; the remaining
names are a permutation of exactly the kept child-directory names (a
directory, not dot-led, not `node_modules`/`vendor`), sorted ascending
in byte order, with paths obtained by joining under `D`; and a failed
read yields just the self-entry. -/
theorem c5_loadDir_spec (fs : FS) (D : String) :
    (loadDir fs D).2.head? = some D ∧
    (loadDir fs D).1.head? = some ("[" ++ (if D == "/" then "/" else goBase D) ++ "]") ∧
    List.Perm (loadDir fs D).1.tail
      ((((fs D).getD []).filter keepEntry).map (fun e => e.name)) ∧
    List.Sorted (fun a b => goLe a b = true) (loadDir fs D).1.tail ∧
    (loadDir fs D).2.tail = (loadDir fs D).1.tail.map (fun d => goJoin D d) ∧
    (fs D = none →
      loadDir fs D = (["[" ++ (if D == "/" then "/" else goBase D) ++ "]"], [D])) := by
  unfold loadDir
  refine ⟨?_, ?_, ?_, ?_, ?_, ?_⟩
  · simp
  · simp
  · simp only [List.singleton_append, List.tail_cons]
    exact List.perm_insertionSort _ _
  · simp only [List.singleton_append, List.tail_cons]
    exact List.sorted_insertionSort _ _
  · simp
  · intro hnone
    simp [hnone, sortStrings, List.insertionSort]

/-- Witness for C5: concrete listings, including a directory whose read
fails. -/
theorem c5_loadDir_spec_witness :
    (loadDir fsEx2 "/r").1 = ["[r]", "ab", "b"] ∧
    (loadDir fsEx2 "/r").2 = ["/r", "/r/ab", "/r/b"] ∧
    loadDir fsEx "/missing" = (["[missing]"], ["/missing"]) := by
  refine ⟨by decide, by decide, ?_⟩
  have h := (c5_loadDir_spec fsEx "/missing").2.2.2.2.2 (by decide)
  rw [h]
  decide

/-! ### C6: stdout carries exactly a Tab-selected path or nothing -/

theorem stepArchive_selected (env : Env) (m : Model) (k : String) :
    (stepArchive env m k).1.selected = m.selected := by
  unfold stepArchive
  (repeat' split) <;> rfl

theorem stepDelete_selected (env : Env) (m : Model) (k : String) :
    (stepDelete env m k).1.selected = m.selected := by
  unfold stepDelete
  (repeat' split) <;> rfl

theorem stepCreate_selected (env : Env) (m : Model) (k : String) :
    (stepCreate env m k).1.selected = m.selected := by
  unfold stepCreate
  (repeat' split) <;>
    first
      | (simp; done)
      | (rcases hf : List.findIdx? (fun p => p == goJoin m.root m.newFolderName)
            (loadDir env.fs m.root).2 with _ | i <;> simp only [hf] <;> simp)

theorem stepBrowse_selected (env : Env) (m : Model) (k : String) (filt : List Item)
    (m' : Model) (q : Bool) (hs : stepBrowse env m k filt = some (m', q)) :
    m'.selected = m.selected ∨
    (k = "tab" ∧ q = true ∧ ∃ it : Item, goIndex filt m.cursor = some it ∧
      ((filt.length : Int) > 0) ∧ m'.selected = it.path) := by
  unfold stepBrowse at hs
  (repeat' split at hs) <;> cases hs <;>
    first
      | (left; simp_all; done)
      | (right;
         refine ⟨by simp_all, rfl, ?_⟩;
         exact ⟨_, by assumption, by assumption, rfl⟩)

theorem stepM_selected (env : Env) (m : Model) (e : Event) (m' : Model) (q : Bool)
    (hs : stepM env m e = some (m', q)) :
    m'.selected = m.selected ∨
    (e = Event.key "tab" ∧ q = true ∧ ∃ it : Item,
      goIndex (filteredM m) m.cursor = some it ∧
      (((filteredM m).length : Int) > 0) ∧ m'.selected = it.path) := by
  cases e with
  | winSize hh =>
    left
    simp only [stepM, Option.some.injEq, Prod.mk.injEq] at hs
    rcases hs with ⟨h1, _⟩
    subst h1
    rfl
  | key k =>
    unfold stepM at hs
    by_cases hA : m.confirmArchive = true
    · left
      simp only [hA, if_true] at hs
      injection hs with h2
      have := stepArchive_selected env m k
      rw [h2] at this
      exact this
    · rw [Bool.not_eq_true] at hA
      simp only [hA, Bool.false_eq_true, if_false] at hs
      by_cases hD : m.confirmDelete = true
      · left
        simp only [hD, if_true] at hs
        injection hs with h2
        have := stepDelete_selected env m k
        rw [h2] at this
        exact this
      · rw [Bool.not_eq_true] at hD
        simp only [hD, Bool.false_eq_true, if_false] at hs
        by_cases hC : m.createMode = true
        · left
          simp only [hC, if_true] at hs
          injection hs with h2
          have := stepCreate_selected env m k
          rw [h2] at this
          exact this
        · rw [Bool.not_eq_true] at hC
          simp only [hC, Bool.false_eq_true, if_false] at hs
          rcases stepBrowse_selected env (clearMsgs m) k (filteredM m) m' q hs with
            h | ⟨hk, hq, it, hidx, hlen, hsel⟩
          · left
            rw [h]
            exact clearMsgs_selected m
          · right
            refine ⟨by rw [hk], hq, it, ?_, hlen, hsel⟩
            rw [← clearMsgs_cursor m]
            exact hidx

theorem runEvents_output (evs : List (Env × Event)) :
    ∀ m : Model, m.selected = "" →
      progOut (runEvents m evs) = none ∨
      ∃ pre env rest mp it,
        evs = pre ++ (env, Event.key "tab") :: rest ∧
        runEvents m pre = some (mp, false) ∧
        goIndex (filteredM mp) mp.cursor = some it ∧
        (((filteredM mp).length : Int) > 0) ∧
        progOut (runEvents m evs) = some it.path := by
  induction evs with
  | nil =>
    intro m h
    left
    simp [runEvents, progOut, h]
  | cons ee es ih =>
    rcases ee with ⟨env1, e1⟩
    intro m h
    rcases hstep : stepM env1 m e1 with _ | ⟨m', q'⟩
    · left
      simp [runEvents, hstep, progOut]
    · rcases stepM_selected env1 m e1 m' q' hstep with hsel | ⟨hk, hq, it, hidx, hlen, hsel⟩
      · by_cases hq : q' = true
        · subst hq
          left
          simp [runEvents, hstep, progOut, hsel, h]
        · rw [Bool.not_eq_true] at hq
          subst hq
          have hrun : runEvents m ((env1, e1) :: es) = runEvents m' es := by
            simp [runEvents, hstep]
          rcases ih m' (hsel.trans h) with hleft | ⟨pre, env2, rest, mp, it, h1, h2, h3, h4, h5⟩
          · left
            rw [hrun]
            exact hleft
          · right
            refine ⟨(env1, e1) :: pre, env2, rest, mp, it, by simp [h1], ?_, h3, h4, ?_⟩
            · simp [runEvents, hstep, h2]
            · rw [hrun]
              exact h5
      · subst hk
        subst hq
        by_cases hp : it.path = ""
        · left
          simp [runEvents, hstep, progOut, hsel, hp]
        · right
          refine ⟨[], env1, es, m, it, rfl, by simp [runEvents], hidx, hlen, ?_⟩
          simp [runEvents, hstep, progOut, hsel, hp]

/-- C6: the program's stdout is either nothing (quit, no Tab select, a
selected empty path, or a crash) or exactly the path of the cursor entry
of a Tab pressed on a non-empty filtered view, which ends the loop;
interactive rendering is on the other stream by construction. -/
theorem c6_output_contract (env0 : Env) (cwd arg : String) (evs : List (Env × Event)) :
    programOutput env0 cwd arg evs = none ∨
    ∃ pre env rest mp it,
      evs = pre ++ (env, Event.key "tab") :: rest ∧
      runEvents (newModel env0 cwd arg) pre = some (mp, false) ∧
      goIndex (filteredM mp) mp.cursor = some it ∧
      (((filteredM mp).length : Int) > 0) ∧
      programOutput env0 cwd arg evs = some it.path :=
  runEvents_output evs (newModel env0 cwd arg) rfl
